import Mathlib

/-!
Verification of the shopping-list aggregation and PDF-export logic of the
foodgram backend (`backend/api/views.py`).

The development shallowly embeds the relevant Python code:

* the ingredient line-items retrieved for a user's cart become a
  `List LineItem`;
* the Python `dict` keyed by ingredient name (insertion ordered, unique
  keys) becomes an association list `List (String × String × Nat)` of
  `(name, measurement_unit, amount)` entries, built by `aggregate`
  exactly as the `for item in recipe_ingredients` loop builds
  `ingredient_list`;
* `convert_pdf` becomes a pure function producing the sequence of
  ReportLab drawing operations together with the stream position;
* `hashlib.md5(...).hexdigest()[:5]` becomes a full executable MD5 over
  the UTF-8 bytes of the Python `str()` serialization of the mapping;
* the favorite / shopping-cart POST and DELETE handlers become pure
  functions over an explicit store, with `get_object_or_404` modelled as
  an `Except Http404` error.
-/

/-- One retrieved row of
`RecipeIngredient.objects.filter(recipe__cart__user=...).values_list(
'ingredient__name', 'ingredient__measurement_unit', 'amount')`. -/
structure LineItem where
  name : String
  unit : String
  amount : Nat
deriving DecidableEq, Repr

/-- One key/value pair of the Python dict `ingredient_list`:
`(name, measurement_unit, amount)`. -/
abbrev AggEntry := String × String × Nat

/-- Update of `ingredient_list[name]['amount'] += amount` on an
association list: the (unique) entry whose key is `n` gets `a` added to
its amount. -/
def updateAmt : List AggEntry → String → Nat → List AggEntry
  | [], _, _ => []
  | e :: rest, n, a =>
      if e.1 = n then (e.1, e.2.1, e.2.2 + a) :: rest
      else e :: updateAmt rest n a

/-- One iteration of the `for item in recipe_ingredients` loop in
`download_shopping_cart`: if the name is unseen, insert
`{'measurement_unit': item[1], 'amount': item[2]}`; otherwise add the
amount to the existing entry. -/
def addItem (acc : List AggEntry) (it : LineItem) : List AggEntry :=
  if acc.any (fun e => e.1 = it.name) then
    updateAmt acc it.name it.amount
  else
    acc ++ [(it.name, it.unit, it.amount)]

/-- The whole aggregation loop of `download_shopping_cart`: fold the
retrieved line-items into the (initially empty) dict. -/
def aggregate (items : List LineItem) : List AggEntry :=
  items.foldl addItem []

/-- Dict lookup of the amount stored under key `n` (0 when absent). -/
def lookupAmt : List AggEntry → String → Nat
  | [], _ => 0
  | e :: rest, n => if e.1 = n then e.2.2 else lookupAmt rest n

/-- Dict lookup of the measurement unit stored under key `n`. -/
def lookupUnit : List AggEntry → String → Option String
  | [], _ => none
  | e :: rest, n => if e.1 = n then some e.2.1 else lookupUnit rest n

/-- Specification-side: the sum of the amounts of all line-items whose
ingredient name is `n`. -/
def sumFor : List LineItem → String → Nat
  | [], _ => 0
  | it :: rest, n => (if it.name = n then it.amount else 0) + sumFor rest n

/-- Specification-side: the measurement unit of the first-seen line-item
whose ingredient name is `n`. -/
def firstUnit : List LineItem → String → Option String
  | [], _ => none
  | it :: rest, n => if it.name = n then some it.unit else firstUnit rest n

/-- Specification-side: the ingredient names in order of first
occurrence, each exactly once. -/
def specKeys : List String → List String
  | [] => []
  | n :: rest => n :: (specKeys rest).filter (fun m => m ≠ n)

/-- The keys of the association list, in order. -/
def keysOf (l : List AggEntry) : List String :=
  l.map Prod.fst

/-- Python `str()` of one dict entry:
`'name': {'measurement_unit': 'unit', 'amount': n}`. -/
def pyReprEntry (e : AggEntry) : String :=
  "'" ++ e.1 ++ "': \x7b'measurement_unit': '" ++ e.2.1
    ++ "', 'amount': " ++ toString e.2.2 ++ "\x7d"

/-- Python `str(ingredient_list)`: the dict serialized in insertion
order, entries separated by `, `, wrapped in braces. -/
def pyStrDict (l : List AggEntry) : String :=
  "\x7b" ++ String.intercalate ", " (l.map pyReprEntry) ++ "\x7d"

/-- UTF-8 encoding of one Unicode code point (Python `str.encode()`). -/
def utf8Char (c : Nat) : List Nat :=
  if c < 128 then [c]
  else if c < 2048 then [192 + c / 64, 128 + c % 64]
  else if c < 65536 then [224 + c / 4096, 128 + c / 64 % 64, 128 + c % 64]
  else [240 + c / 262144, 128 + c / 4096 % 64, 128 + c / 64 % 64, 128 + c % 64]

/-- UTF-8 bytes of a string (Python `str.encode()`). -/
def strBytes (s : String) : List Nat :=
  (s.data.map (fun ch => utf8Char ch.toNat)).flatten

/-- Modulus for 32-bit words. -/
def m32 : Nat := 4294967296

/-- Left rotation of a 32-bit word by `s` bits. -/
def rotl32 (x s : Nat) : Nat :=
  (x * 2 ^ s + x / 2 ^ (32 - s)) % m32

/-- The 64 MD5 round constants `K[i] = floor(2^32 * abs(sin(i+1)))`
(RFC 1321). -/
def md5K : List Nat :=
  [0xd76aa478, 0xe8c7b756, 0x242070db, 0xc1bdceee,
   0xf57c0faf, 0x4787c62a, 0xa8304613, 0xfd469501,
   0x698098d8, 0x8b44f7af, 0xffff5bb1, 0x895cd7be,
   0x6b901122, 0xfd987193, 0xa679438e, 0x49b40821,
   0xf61e2562, 0xc040b340, 0x265e5a51, 0xe9b6c7aa,
   0xd62f105d, 0x02441453, 0xd8a1e681, 0xe7d3fbc8,
   0x21e1cde6, 0xc33707d6, 0xf4d50d87, 0x455a14ed,
   0xa9e3e905, 0xfcefa3f8, 0x676f02d9, 0x8d2a4c8a,
   0xfffa3942, 0x8771f681, 0x6d9d6122, 0xfde5380c,
   0xa4beea44, 0x4bdecfa9, 0xf6bb4b60, 0xbebfbc70,
   0x289b7ec6, 0xeaa127fa, 0xd4ef3085, 0x04881d05,
   0xd9d4d039, 0xe6db99e5, 0x1fa27cf8, 0xc4ac5665,
   0xf4292244, 0x432aff97, 0xab9423a7, 0xfc93a039,
   0x655b59c3, 0x8f0ccc92, 0xffeff47d, 0x85845dd1,
   0x6fa87e4f, 0xfe2ce6e0, 0xa3014314, 0x4e0811a1,
   0xf7537e82, 0xbd3af235, 0x2ad7d2bb, 0xeb86d391]

/-- The 64 MD5 per-round left-rotation amounts (RFC 1321). -/
def md5S : List Nat :=
  [7, 12, 17, 22, 7, 12, 17, 22, 7, 12, 17, 22, 7, 12, 17, 22,
   5, 9, 14, 20, 5, 9, 14, 20, 5, 9, 14, 20, 5, 9, 14, 20,
   4, 11, 16, 23, 4, 11, 16, 23, 4, 11, 16, 23, 4, 11, 16, 23,
   6, 10, 15, 21, 6, 10, 15, 21, 6, 10, 15, 21, 6, 10, 15, 21]

/-- MD5 round function: for round `i` (0-based) return the mixing value
`F` and the message-word index `g` (RFC 1321). Complement of a 32-bit
word `w` is `w ^^^ 0xffffffff`. -/
def md5F (i b c d : Nat) : Nat × Nat :=
  if i < 16 then ((b &&& c) ||| ((b ^^^ 4294967295) &&& d), i)
  else if i < 32 then ((d &&& b) ||| ((d ^^^ 4294967295) &&& c), (5 * i + 1) % 16)
  else if i < 48 then (b ^^^ c ^^^ d, (3 * i + 5) % 16)
  else (c ^^^ (b ||| (d ^^^ 4294967295)), (7 * i) % 16)

/-- Decode a byte sequence into little-endian 32-bit words. -/
def toWords : List Nat → List Nat
  | b0 :: b1 :: b2 :: b3 :: rest =>
      (b0 + 256 * b1 + 65536 * b2 + 16777216 * b3) :: toWords rest
  | _ => []

/-- Little-endian byte serialization of `n` on `k` bytes. -/
def leBytes (n : Nat) : Nat → List Nat
  | 0 => []
  | k + 1 => n % 256 :: leBytes (n / 256) k

/-- One MD5 round: rotate the state `(a, b, c, d)` and mix in word
`M[g]` and constant `K[i]` (RFC 1321). -/
def md5Round (M : List Nat) (st : Nat × Nat × Nat × Nat) (i : Nat) :
    Nat × Nat × Nat × Nat :=
  let a := st.1
  let b := st.2.1
  let c := st.2.2.1
  let d := st.2.2.2
  let fg := md5F i b c d
  let f := (fg.1 + a + md5K.getD i 0 + M.getD fg.2 0) % m32
  (d, (b + rotl32 f (md5S.getD i 0)) % m32, b, c)

/-- Process one 64-byte chunk: run the 64 rounds and add the result to
the incoming state, all mod `2^32`. -/
def md5Chunk (st : Nat × Nat × Nat × Nat) (chunk : List Nat) :
    Nat × Nat × Nat × Nat :=
  let M := toWords chunk
  let r := (List.range 64).foldl (md5Round M) st
  ((st.1 + r.1) % m32, (st.2.1 + r.2.1) % m32,
   (st.2.2.1 + r.2.2.1) % m32, (st.2.2.2 + r.2.2.2) % m32)

/-- MD5 padding: append `0x80`, zero-fill to 56 mod 64, then the
original length in bits as 8 little-endian bytes. -/
def md5Pad (msg : List Nat) : List Nat :=
  msg ++ [128] ++ List.replicate ((55 + 64 - msg.length % 64) % 64) 0
      ++ leBytes (8 * msg.length) 8

/-- Fuelled worker for `chunks64`; the fuel only bounds the recursion
depth, `l.length` fuel always suffices. -/
def chunksGo : Nat → List Nat → List (List Nat)
  | 0, _ => []
  | _, [] => []
  | fuel + 1, l => l.take 64 :: chunksGo fuel (l.drop 64)

/-- Split a byte sequence into successive 64-byte chunks. -/
def chunks64 (l : List Nat) : List (List Nat) :=
  chunksGo l.length l

/-- The MD5 initial state (RFC 1321). -/
def md5Init : Nat × Nat × Nat × Nat :=
  (0x67452301, 0xefcdab89, 0x98badcfe, 0x10325476)

/-- The 16-byte MD5 digest of a byte sequence (`hashlib.md5(...)`). -/
def md5Bytes (msg : List Nat) : List Nat :=
  let r := (chunks64 (md5Pad msg)).foldl md5Chunk md5Init
  leBytes r.1 4 ++ leBytes r.2.1 4 ++ leBytes r.2.2.1 4 ++ leBytes r.2.2.2 4

/-- Lower-case hexadecimal digit for `n < 16`. -/
def hexChar (n : Nat) : Char :=
  if n < 10 then Char.ofNat (48 + n) else Char.ofNat (87 + n)

/-- Two hex digits of one byte. -/
def byteHex (b : Nat) : List Char :=
  [hexChar (b / 16), hexChar (b % 16)]

/-- The characters of `hashlib.md5(...).hexdigest()`. -/
def hexdigestChars (bytes : List Nat) : List Char :=
  (bytes.map byteHex).flatten

/-- The sixteen lower-case hexadecimal digits. -/
def hexDigits : List Char :=
  "0123456789abcdef".data

/-- The five-character hash suffix
`hashlib.md5(str(ingredient_list).encode()).hexdigest()[:5]`. -/
def hashSuffix (l : List AggEntry) : String :=
  String.mk ((hexdigestChars (md5Bytes (strBytes (pyStrDict l)))).take 5)

/-- The download filename built in `download_shopping_cart`. -/
def download_filename (l : List AggEntry) : String :=
  "shopping_list_" ++ hashSuffix l ++ ".pdf"

/-- Ambient facts the renderer consumes: whether the font file
`./fonts/{font}.ttf` can be loaded, and the clock's current year
(`timezone.now().year`). -/
structure RenderEnv where
  fontAvailable : String → Bool
  currentYear : Nat

/-- One ReportLab canvas operation issued by `convert_pdf`. -/
inductive DrawOp where
  | setTitle (title : String)
  | setFont (font : String) (size : Int)
  | drawString (x y : Int) (text : String)
  | line (x1 y1 x2 y2 : Int)
  | showPage
deriving DecidableEq, Repr

/-- The `io.BytesIO` buffer returned by `convert_pdf`: the canvas
operations written into it and the stream position after `seek(0)`. -/
structure PdfBuffer where
  ops : List DrawOp
  pos : Nat
deriving DecidableEq, Repr

/-- The exception raised by `pdfmetrics.registerFont(TTFont(...))` when
the font file cannot be loaded. -/
inductive RenderError where
  | fontNotFound (font : String)
deriving DecidableEq, Repr

/-- The Python f-string `f'{i}. {name} - {amount} {unit}'` for one
aggregated entry. -/
def ingredientLine (i : Nat) (e : AggEntry) : String :=
  toString i ++ ". " ++ e.1 ++ " - " ++ toString e.2.2 ++ " " ++ e.2.1

/-- The signature drawn in the footer, including the current year. -/
def signatureText (year : Nat) : String :=
  "Спасибо, что используете Foodgram Project © " ++ toString year

/-- The body loop of `convert_pdf`: draw line `i` at height `h`, then
the rest 30 units lower; also return the final height cursor. -/
def drawBody (h : Int) (i : Nat) : List AggEntry → List DrawOp × Int
  | [] => ([], h)
  | e :: rest =>
      let r := drawBody (h - 30) (i + 1) rest
      (DrawOp.drawString 75 h (ingredientLine i e) :: r.1, r.2)

/-- Operations before the body: `setTitle`, header `setFont`, the title
string at height 800, and the body `setFont`. -/
def headerOps (title font : String) (font_size : Int) : List DrawOp :=
  [DrawOp.setTitle title, DrawOp.setFont font font_size,
   DrawOp.drawString 50 800 (title ++ ":"), DrawOp.setFont font font_size]

/-- Operations after the body: the horizontal rule at the cursor, the
smaller signature font, the signature 10 units lower, and `showPage`. -/
def footerOps (font : String) (font_size : Int) (year : Nat) (h : Int) :
    List DrawOp :=
  [DrawOp.line 50 h 550 h, DrawOp.setFont font (font_size - 4),
   DrawOp.drawString 50 (h - 10) (signatureText year), DrawOp.showPage]

/-- Embedding of `convert_pdf(data, title, font, font_size)`: register
the font (raising when the font file is absent), draw header, body and
footer, and return the buffer seeked to position 0. -/
def convert_pdf (env : RenderEnv) (data : List AggEntry)
    (title font : String) (font_size : Int) : Except RenderError PdfBuffer :=
  if env.fontAvailable font then
    let body := drawBody 770 1 data
    Except.ok { ops := headerOps title font font_size ++ body.1
                  ++ footerOps font font_size env.currentYear body.2,
                pos := 0 }
  else Except.error (RenderError.fontNotFound font)

/-- The two responses `download_shopping_cart` can build itself: a
`FileResponse` attachment, or the bare 500 `Response`. -/
inductive DownloadResponse where
  | file (buffer : PdfBuffer) (filename : String)
  | serverError
deriving DecidableEq, Repr

/-- Python truthiness of an `io.BytesIO` object: the class defines
neither `__bool__` nor `__len__`, so every instance is truthy. -/
def bytesIOTruthy (_ : PdfBuffer) : Bool := true

/-- Embedding of the `download_shopping_cart` action: aggregate the
user's line-items, render them, and wrap the buffer in a `FileResponse`
named by the content hash. An exception from `convert_pdf` propagates
uncaught (`Except.error`). -/
def download_shopping_cart (env : RenderEnv) (items : List LineItem) :
    Except RenderError DownloadResponse :=
  let ingredient_list := aggregate items
  match convert_pdf env ingredient_list "Список покупок" "Arial" 12 with
  | Except.error e => Except.error e
  | Except.ok pdf_buffer =>
      if bytesIOTruthy pdf_buffer then
        Except.ok (DownloadResponse.file pdf_buffer
          (download_filename ingredient_list))
      else
        Except.ok DownloadResponse.serverError

/-- One `Favorite` or `ShoppingCart` row: a user/recipe association. -/
structure Entry where
  user : Nat
  recipe : Nat
deriving DecidableEq, Repr

/-- The slice of the database the favorite/cart actions touch: the
existing recipe ids and the two association tables. -/
structure Db where
  recipes : List Nat
  favorites : List Entry
  cart : List Entry
deriving DecidableEq, Repr

/-- An HTTP response with status code and optional body text. -/
structure ApiResponse where
  statusCode : Nat
  body : Option String
deriving DecidableEq, Repr

/-- The `Http404` exception raised by `get_object_or_404`. -/
inductive Http404 where
  | notFound
deriving DecidableEq, Repr

/-- The request method of the favorite / shopping-cart actions. -/
inductive Method where
  | post
  | delete
deriving DecidableEq, Repr

/-- The filter `model.objects.filter(user=user, recipe__id=pk)` applied
to one row. -/
def entryMatches (user pk : Nat) (e : Entry) : Bool :=
  e.user == user && e.recipe == pk

/-- Embedding of `RecipeViewSet.post_list`: reject a duplicate with 400,
otherwise `get_object_or_404` the recipe (404 when absent), create the
association and answer 201 with the serialized recipe. -/
def post_list (store : List Entry) (recipes : List Nat) (modelName : String)
    (user pk : Nat) : Except Http404 (ApiResponse × List Entry) :=
  if store.any (entryMatches user pk) then
    Except.ok ({ statusCode := 400,
                 body := some ("Рецепт уже добавлен в " ++ modelName) }, store)
  else if pk ∈ recipes then
    Except.ok ({ statusCode := 201, body := some ("recipe " ++ toString pk) },
               store ++ [{ user := user, recipe := pk }])
  else Except.error Http404.notFound

/-- Embedding of `RecipeViewSet.delete_list`: delete the matching rows
and answer 204 when one exists, otherwise answer 400 with a message. -/
def delete_list (store : List Entry) (modelName : String) (user pk : Nat) :
    ApiResponse × List Entry :=
  if store.any (entryMatches user pk) then
    ({ statusCode := 204, body := none },
     store.filter (fun e => ! entryMatches user pk e))
  else
    ({ statusCode := 400,
       body := some ("Рецепт не добавлен в " ++ modelName) }, store)

/-- Embedding of the `favorite` action: `Recipe.objects.get` wrapped in
try/except answering 400 `Recipe not found` for a missing recipe, then
`post_list` / `delete_list` on the `Favorite` table. -/
def favorite (db : Db) (user pk : Nat) (m : Method) :
    Except Http404 (ApiResponse × Db) :=
  if pk ∈ db.recipes then
    match m with
    | Method.post =>
        (post_list db.favorites db.recipes "Favorite" user pk).map
          (fun r => (r.1, { db with favorites := r.2 }))
    | Method.delete =>
        let r := delete_list db.favorites "Favorite" user pk
        Except.ok (r.1, { db with favorites := r.2 })
  else
    Except.ok ({ statusCode := 400, body := some "Recipe not found" }, db)

/-- Embedding of the `shopping_cart` action: no existence pre-check,
directly `post_list` / `delete_list` on the `ShoppingCart` table. -/
def shopping_cart (db : Db) (user pk : Nat) (m : Method) :
    Except Http404 (ApiResponse × Db) :=
  match m with
  | Method.post =>
      (post_list db.cart db.recipes "ShoppingCart" user pk).map
        (fun r => (r.1, { db with cart := r.2 }))
  | Method.delete =>
      let r := delete_list db.cart "ShoppingCart" user pk
      Except.ok (r.1, { db with cart := r.2 })

theorem keysOf_updateAmt (l : List AggEntry) (n : String) (a : Nat) :
    keysOf (updateAmt l n a) = keysOf l := by
  induction l with
  | nil => rfl
  | cons e rest ih =>
      simp only [updateAmt]
      by_cases h : e.1 = n
      · simp [keysOf, h]
      · simp only [if_neg h]
        simp [keysOf] at ih ⊢
        exact ih

theorem any_key_eq_mem (l : List AggEntry) (n : String) :
    (l.any (fun e => e.1 = n)) = true ↔ n ∈ keysOf l := by
  simp [List.any_eq_true, keysOf, List.mem_map]

theorem keysOf_addItem (acc : List AggEntry) (it : LineItem) :
    keysOf (addItem acc it) =
      if it.name ∈ keysOf acc then keysOf acc else keysOf acc ++ [it.name] := by
  by_cases h : it.name ∈ keysOf acc
  · rw [if_pos h]
    have ha : (acc.any (fun e => e.1 = it.name)) = true :=
      (any_key_eq_mem acc it.name).mpr h
    simp [addItem, ha, keysOf_updateAmt]
  · rw [if_neg h]
    have ha : ¬ (acc.any (fun e => e.1 = it.name)) = true := by
      rw [any_key_eq_mem]; exact h
    simp only [addItem, ha]
    simp [keysOf]

theorem keysOf_foldl_addItem (items : List LineItem) (acc : List AggEntry) :
    keysOf (items.foldl addItem acc) =
      keysOf acc ++ (specKeys (items.map LineItem.name)).filter
        (fun n => ¬ n ∈ keysOf acc) := by
  induction items generalizing acc with
  | nil => simp [specKeys]
  | cons it rest ih =>
      simp only [List.foldl_cons, List.map_cons, specKeys]
      rw [ih]
      rw [keysOf_addItem]
      by_cases h : it.name ∈ keysOf acc
      · rw [if_pos h]
        simp only [List.filter_cons]
        have hdec : ¬ (decide (¬ it.name ∈ keysOf acc) = true) := by
          simp [h]
        rw [if_neg hdec]
        congr 1
        rw [List.filter_filter]
        apply List.filter_congr
        intro x _
        by_cases hx : x ∈ keysOf acc
        · simp [hx]
        · have : x ≠ it.name := fun hxn => hx (hxn ▸ h)
          simp [hx, this]
      · rw [if_neg h]
        simp only [List.filter_cons]
        have hdec : (decide (¬ it.name ∈ keysOf acc) = true) := by
          simp [h]
        rw [if_pos hdec]
        simp only [List.append_assoc, List.singleton_append]
        congr 1
        congr 1
        rw [List.filter_filter]
        apply List.filter_congr
        intro x _
        by_cases hxm : x = it.name
        · simp [hxm, h]
        · by_cases hx : x ∈ keysOf acc
          · simp [hx, hxm]
          · simp [hx, hxm, List.mem_append]

theorem keysOf_aggregate (items : List LineItem) :
    keysOf (aggregate items) = specKeys (items.map LineItem.name) := by
  have h := keysOf_foldl_addItem items []
  simp only [aggregate]
  rw [h]
  simp [keysOf]

theorem specKeys_nodup (ns : List String) : (specKeys ns).Nodup := by
  induction ns with
  | nil => exact List.nodup_nil
  | cons n rest ih =>
      simp only [specKeys]
      refine List.Nodup.cons ?_ (List.Nodup.filter _ ih)
      intro hmem
      have := List.of_mem_filter hmem
      simp at this

theorem lookupAmt_updateAmt_self (l : List AggEntry) (n : String) (a : Nat)
    (h : (l.any (fun e => e.1 = n)) = true) :
    lookupAmt (updateAmt l n a) n = lookupAmt l n + a := by
  induction l with
  | nil => simp at h
  | cons e rest ih =>
      by_cases he : e.1 = n
      · simp [updateAmt, lookupAmt, he]
      · have hrest : (rest.any (fun e => e.1 = n)) = true := by
          cases hb : rest.any (fun e => e.1 = n) with
          | true => rfl
          | false =>
              rw [List.any_cons, hb] at h
              simp [he] at h
        simp only [updateAmt, if_neg he, lookupAmt]
        exact ih hrest

theorem lookupAmt_updateAmt_other (l : List AggEntry) (n m : String) (a : Nat)
    (hnm : m ≠ n) :
    lookupAmt (updateAmt l n a) m = lookupAmt l m := by
  induction l with
  | nil => rfl
  | cons e rest ih =>
      by_cases he : e.1 = n
      · have hem : ¬ e.1 = m := fun hc => hnm (hc ▸ he)
        have hnm' : ¬ n = m := fun hc => hnm hc.symm
        simp [updateAmt, he, lookupAmt, hem, hnm']
      · simp only [updateAmt, if_neg he, lookupAmt]
        by_cases hm : e.1 = m
        · simp [hm]
        · simp [hm, ih]

theorem lookupUnit_updateAmt (l : List AggEntry) (n m : String) (a : Nat) :
    lookupUnit (updateAmt l n a) m = lookupUnit l m := by
  induction l with
  | nil => rfl
  | cons e rest ih =>
      by_cases he : e.1 = n
      · by_cases hm : e.1 = m
        · simp [updateAmt, he, lookupUnit, hm]
        · simp [updateAmt, he, lookupUnit, hm]
      · simp only [updateAmt, if_neg he, lookupUnit]
        by_cases hm : e.1 = m
        · simp [hm]
        · simp [hm, ih]

theorem lookupAmt_not_any (l : List AggEntry) (n : String)
    (h : (l.any (fun e => e.1 = n)) = false) :
    lookupAmt l n = 0 := by
  induction l with
  | nil => rfl
  | cons e rest ih =>
      rw [List.any_cons] at h
      have he : ¬ e.1 = n := by
        intro hc
        rw [show (decide (e.1 = n)) = true by simp [hc]] at h
        simp at h
      have hrest : (rest.any (fun e => e.1 = n)) = false := by
        cases hb : rest.any (fun e => e.1 = n) with
        | false => rfl
        | true => rw [hb] at h; simp at h
      simp [lookupAmt, he, ih hrest]

theorem lookupUnit_eq_none_iff (l : List AggEntry) (n : String) :
    lookupUnit l n = none ↔ (l.any (fun e => e.1 = n)) = false := by
  induction l with
  | nil => simp [lookupUnit]
  | cons e rest ih =>
      rw [List.any_cons]
      by_cases he : e.1 = n
      · simp [lookupUnit, he]
      · simp [lookupUnit, he, ih]

theorem lookupAmt_append (l : List AggEntry) (x : AggEntry) (n : String) :
    lookupAmt (l ++ [x]) n =
      if (l.any (fun e => e.1 = n)) then lookupAmt l n
      else if x.1 = n then x.2.2 else 0 := by
  induction l with
  | nil => simp [lookupAmt]
  | cons e rest ih =>
      rw [List.cons_append, List.any_cons]
      by_cases he : e.1 = n
      · simp [lookupAmt, he]
      · simp only [lookupAmt, if_neg he]
        rw [ih, decide_eq_false he, Bool.false_or]

theorem lookupUnit_append_of_some (l : List AggEntry) (x : AggEntry)
    (n : String) (u : String) (h : lookupUnit l n = some u) :
    lookupUnit (l ++ [x]) n = some u := by
  induction l with
  | nil => simp [lookupUnit] at h
  | cons e rest ih =>
      by_cases he : e.1 = n
      · simp [lookupUnit, he] at h ⊢
        exact h
      · simp only [lookupUnit, if_neg he] at h
        rw [List.cons_append]
        simp only [lookupUnit, if_neg he]
        exact ih h

theorem lookupUnit_append_of_none (l : List AggEntry) (x : AggEntry)
    (n : String) (h : lookupUnit l n = none) :
    lookupUnit (l ++ [x]) n = if x.1 = n then some x.2.1 else none := by
  induction l with
  | nil => simp [lookupUnit]
  | cons e rest ih =>
      by_cases he : e.1 = n
      · simp [lookupUnit, he] at h
      · simp only [lookupUnit, if_neg he] at h
        rw [List.cons_append]
        simp only [lookupUnit, if_neg he]
        exact ih h

theorem lookupAmt_addItem (acc : List AggEntry) (it : LineItem) (n : String) :
    lookupAmt (addItem acc it) n =
      lookupAmt acc n + (if it.name = n then it.amount else 0) := by
  by_cases ha : (acc.any (fun e => e.1 = it.name)) = true
  · simp only [addItem, if_pos ha]
    by_cases hn : it.name = n
    · subst hn
      rw [lookupAmt_updateAmt_self acc _ _ ha]
      simp
    · rw [lookupAmt_updateAmt_other acc it.name n it.amount (fun hc => hn hc.symm)]
      simp [hn]
  · have ha' : (acc.any (fun e => e.1 = it.name)) = false := by
      cases hb : acc.any (fun e => e.1 = it.name) with
      | false => rfl
      | true => exact absurd hb ha
    rw [show addItem acc it = acc ++ [(it.name, it.unit, it.amount)] by
      simp [addItem, ha']]
    rw [lookupAmt_append]
    by_cases hn : it.name = n
    · subst hn
      rw [if_neg (by simp [ha']), if_pos rfl, lookupAmt_not_any acc _ ha']
      simp
    · cases hb : acc.any (fun e => e.1 = n) with
      | true => simp [hb, hn]
      | false =>
          rw [if_neg (by simp [hb]), if_neg hn, lookupAmt_not_any acc _ hb]

theorem lookupUnit_addItem (acc : List AggEntry) (it : LineItem) (n : String) :
    lookupUnit (addItem acc it) n =
      match lookupUnit acc n with
      | some u => some u
      | none => if it.name = n then some it.unit else none := by
  by_cases ha : (acc.any (fun e => e.1 = it.name)) = true
  · simp only [addItem, if_pos ha]
    rw [lookupUnit_updateAmt]
    cases h : lookupUnit acc n with
    | some u => rfl
    | none =>
        have hany := (lookupUnit_eq_none_iff acc n).mp h
        by_cases hn : it.name = n
        · subst hn
          rw [hany] at ha
          simp at ha
        · simp [hn]
  · have ha' : (acc.any (fun e => e.1 = it.name)) = false := by
      cases hb : acc.any (fun e => e.1 = it.name) with
      | false => rfl
      | true => exact absurd hb ha
    rw [show addItem acc it = acc ++ [(it.name, it.unit, it.amount)] by
      simp [addItem, ha']]
    cases h : lookupUnit acc n with
    | some u => rw [lookupUnit_append_of_some acc _ n u h]
    | none => rw [lookupUnit_append_of_none acc _ n h]

theorem lookupAmt_foldl (items : List LineItem) (acc : List AggEntry) (n : String) :
    lookupAmt (items.foldl addItem acc) n = lookupAmt acc n + sumFor items n := by
  induction items generalizing acc with
  | nil => simp [sumFor]
  | cons it rest ih =>
      simp only [List.foldl_cons, sumFor]
      rw [ih, lookupAmt_addItem, Nat.add_assoc]

theorem lookupUnit_foldl (items : List LineItem) (acc : List AggEntry) (n : String) :
    lookupUnit (items.foldl addItem acc) n =
      match lookupUnit acc n with
      | some u => some u
      | none => firstUnit items n := by
  induction items generalizing acc with
  | nil => cases h : lookupUnit acc n <;> simp [firstUnit, h]
  | cons it rest ih =>
      simp only [List.foldl_cons, firstUnit]
      rw [ih, lookupUnit_addItem]
      cases h : lookupUnit acc n with
      | some u => simp
      | none => by_cases hn : it.name = n <;> simp [hn]

/-- C1: for every retrieved line-item sequence, the mapping built by
`download_shopping_cart` has exactly the occurring ingredient names as
keys, in insertion order of first occurrence and each exactly once, and
maps each name to the sum of the amounts of all line-items with that
name together with the measurement unit of the first-seen line-item for
that name. -/
theorem aggregate_matches_spec (items : List LineItem) :
    keysOf (aggregate items) = specKeys (items.map LineItem.name) ∧
    (keysOf (aggregate items)).Nodup ∧
    (∀ n : String, lookupAmt (aggregate items) n = sumFor items n) ∧
    (∀ n : String, lookupUnit (aggregate items) n = firstUnit items n) := by
  refine ⟨keysOf_aggregate items, ?_, ?_, ?_⟩
  · rw [keysOf_aggregate]
    exact specKeys_nodup _
  · intro n
    have h := lookupAmt_foldl items [] n
    simpa [aggregate, lookupAmt] using h
  · intro n
    have h := lookupUnit_foldl items [] n
    simpa [aggregate, lookupUnit] using h

/-- C2 counterexample: two line-items that agree on the name `flour` but
disagree on the unit (`g` vs `cup`) are nonetheless summed into a single
aggregated entry, so merging is not keyed on the pair (name, unit). -/
theorem aggregate_merges_despite_unit_mismatch :
    aggregate [⟨"flour", "g", 200⟩, ⟨"flour", "cup", 3⟩]
        = [("flour", "g", 203)] ∧
    ("g" : String) ≠ "cup" := by
  constructor
  · rfl
  · decide

/-- C2 amended: the aggregator merges line-items by ingredient name
alone; the amount stored under a name is the sum over all line-items
with that name whatever their units, and the unit recorded is that of
the first-seen line-item, never reconciled against later ones. -/
theorem aggregate_merges_by_name_only (items : List LineItem) (n : String) :
    lookupAmt (aggregate items) n = sumFor items n ∧
    lookupUnit (aggregate items) n = firstUnit items n := by
  constructor
  · have h := lookupAmt_foldl items [] n
    simpa [aggregate, lookupAmt] using h
  · have h := lookupUnit_foldl items [] n
    simpa [aggregate, lookupUnit] using h

theorem leBytes_length (k : Nat) : ∀ n : Nat, (leBytes n k).length = k := by
  induction k with
  | zero => intro n; rfl
  | succ k ih => intro n; simp [leBytes, ih]

theorem leBytes_lt (k : Nat) :
    ∀ n : Nat, ∀ b ∈ leBytes n k, b < 256 := by
  induction k with
  | zero => intro n b hb; simp [leBytes] at hb
  | succ k ih =>
      intro n b hb
      simp only [leBytes, List.mem_cons] at hb
      cases hb with
      | inl h => subst h; exact Nat.mod_lt _ (by omega)
      | inr h => exact ih _ b h

theorem md5Bytes_length (msg : List Nat) : (md5Bytes msg).length = 16 := by
  simp [md5Bytes, leBytes_length]

theorem md5Bytes_lt (msg : List Nat) : ∀ b ∈ md5Bytes msg, b < 256 := by
  intro b hb
  simp only [md5Bytes, List.mem_append] at hb
  rcases hb with ((h | h) | h) | h <;> exact leBytes_lt _ _ b h

theorem hexChar_mem_hexDigits : ∀ n : Nat, n < 16 → hexChar n ∈ hexDigits := by
  decide

theorem hexdigestChars_length (bytes : List Nat) :
    (hexdigestChars bytes).length = 2 * bytes.length := by
  induction bytes with
  | nil => rfl
  | cons b rest ih =>
      simp only [hexdigestChars, List.map_cons, List.flatten_cons,
        List.length_append, List.length_cons] at ih ⊢
      simp [byteHex] at ih ⊢
      omega

theorem hexdigestChars_mem (bytes : List Nat) (hb : ∀ b ∈ bytes, b < 256) :
    ∀ c ∈ hexdigestChars bytes, c ∈ hexDigits := by
  intro c hc
  simp only [hexdigestChars, List.mem_flatten, List.mem_map] at hc
  obtain ⟨l, ⟨b, hbmem, rfl⟩, hcl⟩ := hc
  have hblt := hb b hbmem
  simp only [byteHex, List.mem_cons, List.not_mem_nil] at hcl
  rcases hcl with h | h | h
  · subst h; exact hexChar_mem_hexDigits _ (by omega)
  · subst h; exact hexChar_mem_hexDigits _ (Nat.mod_lt _ (by omega))
  · cases h

/-- C3: the download filename is `shopping_list_` followed by the first
five characters of the MD5 hexdigest of the Python string serialization
of the aggregated mapping, followed by `.pdf`; equal mappings give equal
filenames and the suffix is always exactly five hexadecimal digits. -/
theorem download_filename_spec (m m' : List AggEntry) (hid : m = m') :
    download_filename m = download_filename m' ∧
    download_filename m =
      "shopping_list_" ++
        String.mk ((hexdigestChars (md5Bytes (strBytes (pyStrDict m)))).take 5)
        ++ ".pdf" ∧
    (hashSuffix m).length = 5 ∧
    (∀ c ∈ (hashSuffix m).data, c ∈ hexDigits) := by
  refine ⟨by rw [hid], rfl, ?_, ?_⟩
  · show (String.mk ((hexdigestChars
        (md5Bytes (strBytes (pyStrDict m)))).take 5)).length = 5
    have h32 : (hexdigestChars (md5Bytes (strBytes (pyStrDict m)))).length = 32 := by
      rw [hexdigestChars_length, md5Bytes_length]
    simp [String.length, List.length_take, h32]
  · intro c hc
    have hc' : c ∈ hexdigestChars (md5Bytes (strBytes (pyStrDict m))) :=
      List.take_subset _ _ hc
    exact hexdigestChars_mem _ (md5Bytes_lt _) c hc'

/-- Witness for C3: the theorem applied to the empty mapping. -/
theorem download_filename_spec_witness :
    download_filename [] = download_filename [] ∧
    download_filename [] =
      "shopping_list_" ++
        String.mk ((hexdigestChars (md5Bytes (strBytes (pyStrDict [])))).take 5)
        ++ ".pdf" ∧
    (hashSuffix []).length = 5 ∧
    (∀ c ∈ (hashSuffix []).data, c ∈ hexDigits) :=
  download_filename_spec [] [] rfl

theorem drawBody_length (data : List AggEntry) :
    ∀ (h : Int) (i : Nat), (drawBody h i data).1.length = data.length := by
  induction data with
  | nil => intro h i; rfl
  | cons e rest ih => intro h i; simp [drawBody, ih]

theorem drawBody_snd (data : List AggEntry) :
    ∀ (h : Int) (i : Nat), (drawBody h i data).2 = h - 30 * data.length := by
  induction data with
  | nil => intro h i; simp [drawBody]
  | cons e rest ih =>
      intro h i
      simp only [drawBody]
      rw [ih]
      simp only [List.length_cons]
      push_cast
      ring

theorem drawBody_get? (data : List AggEntry) :
    ∀ (h : Int) (i j : Nat) (e : AggEntry), data.get? j = some e →
      (drawBody h i data).1.get? j =
        some (DrawOp.drawString 75 (h - 30 * j) (ingredientLine (i + j) e)) := by
  induction data with
  | nil => intro h i j e he; simp at he
  | cons x rest ih =>
      intro h i j e he
      cases j with
      | zero =>
          rw [List.get?_cons_zero] at he
          cases he
          simp [drawBody]
      | succ j =>
          rw [List.get?_cons_succ] at he
          have hr := ih (h - 30) (i + 1) j e he
          simp only [drawBody, List.get?_cons_succ]
          rw [hr]
          have harith : h - 30 - 30 * (j : Int) = h - 30 * ((j + 1 : Nat) : Int) := by
            push_cast
            ring
          have hidx : i + 1 + j = i + (j + 1) := by omega
          rw [harith, hidx]

theorem convert_pdf_ok (env : RenderEnv) (data : List AggEntry)
    (title font : String) (fs : Int) (hfont : env.fontAvailable font = true) :
    convert_pdf env data title font fs =
      Except.ok { ops := headerOps title font fs ++ (drawBody 770 1 data).1
                    ++ footerOps font fs env.currentYear
                        (770 - 30 * data.length),
                  pos := 0 } := by
  simp only [convert_pdf, hfont, if_true]
  rw [drawBody_snd]

/-- C5: with the font available, `convert_pdf` succeeds for a list of
any length, drawing the title at height 800 and the `i`-th aggregated
ingredient (1-based) as `"{i}. {name} - {amount} {unit}"` at height
`800 - 30 * i`, with no bound checked against the page bottom, so the
height may pass below the page edge or become negative. -/
theorem convert_pdf_body_layout (env : RenderEnv) (data : List AggEntry)
    (title font : String) (fs : Int) (i : Nat) (e : AggEntry)
    (hfont : env.fontAvailable font = true) (h1 : 1 ≤ i)
    (he : data.get? (i - 1) = some e) :
    ∃ b : PdfBuffer, convert_pdf env data title font fs = Except.ok b ∧
      b.ops.get? 2 = some (DrawOp.drawString 50 800 (title ++ ":")) ∧
      b.ops.get? (3 + i) =
        some (DrawOp.drawString 75 (800 - 30 * i) (ingredientLine i e)) := by
  have hh4 : (headerOps title font fs).length = 4 := rfl
  have hbl : (drawBody 770 1 data).1.length = data.length :=
    drawBody_length data 770 1
  refine ⟨_, convert_pdf_ok env data title font fs hfont, ?_, ?_⟩
  · rw [List.get?_append (by rw [List.length_append, hh4, hbl]; omega)]
    rw [List.get?_append (by rw [hh4]; omega)]
    rfl
  · have hlen : i - 1 < data.length := by
      rcases List.get?_eq_some.mp he with ⟨hlt, _⟩
      omega
    rw [List.get?_append (by rw [List.length_append, hh4, hbl]; omega)]
    rw [List.get?_append_right (by rw [hh4]; omega)]
    rw [hh4]
    have hb := drawBody_get? data 770 1 (i - 1) e he
    rw [show 3 + i - 4 = i - 1 by omega, hb]
    have harith : (770 : Int) - 30 * ((i - 1 : Nat) : Int)
        = 800 - 30 * (i : Int) := by omega
    have hone : 1 + (i - 1) = i := by omega
    rw [harith, hone]

/-- Witness for C5: a one-entry mapping rendered in a font-available
environment; the single ingredient line sits at height 770. -/
theorem convert_pdf_body_layout_witness :
    (RenderEnv.mk (fun _ => true) 2024).fontAvailable "Arial" = true ∧
    1 ≤ 1 ∧
    ([(("flour", "g", 500) : AggEntry)].get? (1 - 1)
        = some ("flour", "g", 500)) ∧
    (∃ b : PdfBuffer,
      convert_pdf (RenderEnv.mk (fun _ => true) 2024)
          [("flour", "g", 500)] "Список покупок" "Arial" 12 = Except.ok b ∧
      b.ops.get? 2
          = some (DrawOp.drawString 50 800 ("Список покупок" ++ ":")) ∧
      b.ops.get? (3 + 1) =
        some (DrawOp.drawString 75 (800 - 30 * 1)
          (ingredientLine 1 ("flour", "g", 500)))) :=
  ⟨rfl, Nat.le_refl 1, rfl,
    convert_pdf_body_layout (RenderEnv.mk (fun _ => true) 2024)
      [("flour", "g", 500)] "Список покупок" "Arial" 12 1
      ("flour", "g", 500) rfl (Nat.le_refl 1) rfl⟩

/-- C6: an empty cart aggregates to the empty mapping, and rendering
the empty mapping still succeeds and produces exactly the title header
and the footer, with no ingredient lines. -/
theorem empty_cart_renders_title_and_footer (env : RenderEnv)
    (title font : String) (fs : Int)
    (hfont : env.fontAvailable font = true) :
    aggregate [] = [] ∧
    convert_pdf env (aggregate []) title font fs =
      Except.ok { ops := headerOps title font fs
                    ++ footerOps font fs env.currentYear 770,
                  pos := 0 } := by
  refine ⟨rfl, ?_⟩
  rw [show aggregate [] = [] from rfl,
    convert_pdf_ok env [] title font fs hfont]
  simp [drawBody]

/-- Witness for C6: the empty cart rendered with the source's actual
title, font and size. -/
theorem empty_cart_renders_witness :
    (RenderEnv.mk (fun _ => true) 2024).fontAvailable "Arial" = true ∧
    (aggregate [] = [] ∧
      convert_pdf (RenderEnv.mk (fun _ => true) 2024) (aggregate [])
          "Список покупок" "Arial" 12 =
        Except.ok { ops := headerOps "Список покупок" "Arial" 12
                      ++ footerOps "Arial" 12 2024 770,
                    pos := 0 }) :=
  ⟨rfl, empty_cart_renders_title_and_footer
    (RenderEnv.mk (fun _ => true) 2024) "Список покупок" "Arial" 12 rfl⟩

/-- C7: after the last ingredient line the renderer draws a horizontal
rule at the reached cursor height, then the signature line with the
fixed attribution phrase and the clock's current year, 10 units lower,
in a font exactly four units smaller than the body font. -/
theorem convert_pdf_footer (env : RenderEnv) (data : List AggEntry)
    (title font : String) (fs : Int)
    (hfont : env.fontAvailable font = true) :
    ∃ b : PdfBuffer, convert_pdf env data title font fs = Except.ok b ∧
      b.ops = headerOps title font fs ++ (drawBody 770 1 data).1
          ++ [DrawOp.line 50 (770 - 30 * data.length) 550
                (770 - 30 * data.length),
              DrawOp.setFont font (fs - 4),
              DrawOp.drawString 50 (770 - 30 * data.length - 10)
                (signatureText env.currentYear),
              DrawOp.showPage] ∧
      signatureText env.currentYear =
        "Спасибо, что используете Foodgram Project © "
          ++ toString env.currentYear := by
  exact ⟨_, convert_pdf_ok env data title font fs hfont, rfl, rfl⟩

/-- Witness for C7: the footer of a one-entry document rendered in a
font-available environment with the clock year 2024. -/
theorem convert_pdf_footer_witness :
    (RenderEnv.mk (fun _ => true) 2024).fontAvailable "Arial" = true ∧
    (∃ b : PdfBuffer,
      convert_pdf (RenderEnv.mk (fun _ => true) 2024)
          [("flour", "g", 500)] "Список покупок" "Arial" 12 = Except.ok b ∧
      b.ops = headerOps "Список покупок" "Arial" 12
          ++ (drawBody 770 1 [("flour", "g", 500)]).1
          ++ [DrawOp.line 50 (770 - 30 * ([(("flour", "g", 500) : AggEntry)].length)) 550
                (770 - 30 * ([(("flour", "g", 500) : AggEntry)].length)),
              DrawOp.setFont "Arial" (12 - 4),
              DrawOp.drawString 50
                (770 - 30 * ([(("flour", "g", 500) : AggEntry)].length) - 10)
                (signatureText 2024),
              DrawOp.showPage] ∧
      signatureText 2024 =
        "Спасибо, что используете Foodgram Project © " ++ toString 2024) :=
  ⟨rfl, convert_pdf_footer (RenderEnv.mk (fun _ => true) 2024)
    [("flour", "g", 500)] "Список покупок" "Arial" 12 rfl⟩

/-- C4: evaluation at the failing input. When the font file for `Arial`
cannot be loaded, `download_shopping_cart` does not catch the failure
and does not return its own 500 response: the `registerFont` exception
propagates uncaught out of the view (no success response with a partial
file is produced either, since no response is produced at all). -/
theorem font_failure_propagates_uncaught :
    download_shopping_cart
        { fontAvailable := fun _ => false, currentYear := 2024 } []
      = Except.error (RenderError.fontNotFound "Arial") := rfl

/-- C9: a buffer returned by `convert_pdf` is always seeked to position
0 and truthy, the 500 branch of `download_shopping_cart` is therefore
unreachable, and a rendering failure surfaces as the uncaught
exception from `convert_pdf`, never as that 500 response. -/
theorem convert_pdf_buffer_500_unreachable
    (env : RenderEnv) (items : List LineItem) (data : List AggEntry)
    (title font : String) (fs : Int) (b : PdfBuffer)
    (hok : convert_pdf env data title font fs = Except.ok b) :
    b.pos = 0 ∧ bytesIOTruthy b = true ∧
    download_shopping_cart env items ≠ Except.ok DownloadResponse.serverError ∧
    (∀ e : RenderError,
      convert_pdf env (aggregate items) "Список покупок" "Arial" 12
          = Except.error e →
      download_shopping_cart env items = Except.error e) := by
  have hpos : b.pos = 0 := by
    by_cases hf : env.fontAvailable font = true
    · rw [convert_pdf_ok env data title font fs hf] at hok
      cases hok
      rfl
    · have hf' : env.fontAvailable font = false := by
        cases hb : env.fontAvailable font with
        | false => rfl
        | true => exact absurd hb hf
      simp [convert_pdf, hf'] at hok
  refine ⟨hpos, rfl, ?_, ?_⟩
  · simp only [download_shopping_cart]
    cases hc : convert_pdf env (aggregate items) "Список покупок" "Arial" 12 with
    | error e => simp
    | ok pb => simp [bytesIOTruthy]
  · intro e hce
    simp only [download_shopping_cart]
    rw [hce]

/-- Witness for C9: a concrete successful render of the empty mapping
in a font-available environment. -/
theorem convert_pdf_buffer_500_unreachable_witness :
    convert_pdf (RenderEnv.mk (fun _ => true) 2024) [] "t" "f" 12
        = Except.ok { ops := headerOps "t" "f" 12 ++ []
                        ++ footerOps "f" 12 2024 770, pos := 0 } ∧
    (({ ops := headerOps "t" "f" 12 ++ []
          ++ footerOps "f" 12 2024 770, pos := 0 } : PdfBuffer).pos = 0 ∧
      bytesIOTruthy { ops := headerOps "t" "f" 12 ++ []
          ++ footerOps "f" 12 2024 770, pos := 0 } = true ∧
      download_shopping_cart (RenderEnv.mk (fun _ => true) 2024) []
          ≠ Except.ok DownloadResponse.serverError ∧
      (∀ e : RenderError,
        convert_pdf (RenderEnv.mk (fun _ => true) 2024) (aggregate [])
            "Список покупок" "Arial" 12 = Except.error e →
        download_shopping_cart (RenderEnv.mk (fun _ => true) 2024) []
            = Except.error e)) :=
  ⟨rfl, convert_pdf_buffer_500_unreachable
    (RenderEnv.mk (fun _ => true) 2024) [] [] "t" "f" 12
    { ops := headerOps "t" "f" 12 ++ [] ++ footerOps "f" 12 2024 770,
      pos := 0 } rfl⟩

/-- C8: creating an association that already exists answers 400 with a
descriptive message and leaves the store unchanged, and deleting an
association that does not exist answers 400 with a descriptive message
and leaves the store unchanged; neither succeeds silently. -/
theorem duplicate_add_missing_delete_rejected
    (store store2 : List Entry) (recipes : List Nat) (modelName : String)
    (user pk : Nat)
    (hdup : store.any (entryMatches user pk) = true)
    (habs : store2.any (entryMatches user pk) = false) :
    post_list store recipes modelName user pk =
      Except.ok ({ statusCode := 400,
                   body := some ("Рецепт уже добавлен в " ++ modelName) },
                 store) ∧
    delete_list store2 modelName user pk =
      ({ statusCode := 400,
         body := some ("Рецепт не добавлен в " ++ modelName) }, store2) := by
  constructor
  · simp [post_list, hdup]
  · simp [delete_list, habs]

/-- Witness for C8: user 1 already has recipe 2 in the store, and the
empty store has nothing to delete. -/
theorem duplicate_add_missing_delete_rejected_witness :
    ([Entry.mk 1 2].any (entryMatches 1 2) = true) ∧
    (([] : List Entry).any (entryMatches 1 2) = false) ∧
    (post_list [Entry.mk 1 2] [2] "Favorite" 1 2 =
      Except.ok ({ statusCode := 400,
                   body := some ("Рецепт уже добавлен в " ++ "Favorite") },
                 [Entry.mk 1 2]) ∧
     delete_list [] "Favorite" 1 2 =
      ({ statusCode := 400,
         body := some ("Рецепт не добавлен в " ++ "Favorite") },
       ([] : List Entry))) :=
  ⟨rfl, rfl,
    duplicate_add_missing_delete_rejected [Entry.mk 1 2] [] [2] "Favorite" 1 2
      rfl rfl⟩

/-- C10: for a recipe id matching no recipe, `favorite` answers 400
with body `Recipe not found` on both POST and DELETE, while
`shopping_cart` POST raises `Http404` from `get_object_or_404`: the
same missing-recipe condition yields different statuses. -/
theorem missing_recipe_divergent_statuses (db : Db) (user pk : Nat)
    (hpk : ¬ pk ∈ db.recipes)
    (hint : ∀ e ∈ db.cart, e.recipe ∈ db.recipes) :
    favorite db user pk Method.post =
      Except.ok ({ statusCode := 400, body := some "Recipe not found" }, db) ∧
    favorite db user pk Method.delete =
      Except.ok ({ statusCode := 400, body := some "Recipe not found" }, db) ∧
    shopping_cart db user pk Method.post = Except.error Http404.notFound := by
  refine ⟨?_, ?_, ?_⟩
  · simp [favorite, hpk]
  · simp [favorite, hpk]
  · have hnone : db.cart.any (entryMatches user pk) = false := by
      cases hb : db.cart.any (entryMatches user pk) with
      | false => rfl
      | true =>
          obtain ⟨e, he, hm⟩ := List.any_eq_true.mp hb
          simp only [entryMatches, Bool.and_eq_true, beq_iff_eq] at hm
          exact absurd (hm.2 ▸ hint e he) hpk
    simp [shopping_cart, post_list, hnone, hpk, Except.map]

/-- Witness for C10: recipe id 1 in an empty database. -/
theorem missing_recipe_divergent_statuses_witness :
    (¬ (1 : Nat) ∈ (Db.mk [] [] []).recipes) ∧
    (∀ e ∈ (Db.mk [] [] []).cart, e.recipe ∈ (Db.mk [] [] []).recipes) ∧
    (favorite (Db.mk [] [] []) 0 1 Method.post =
      Except.ok ({ statusCode := 400, body := some "Recipe not found" },
                 Db.mk [] [] []) ∧
     favorite (Db.mk [] [] []) 0 1 Method.delete =
      Except.ok ({ statusCode := 400, body := some "Recipe not found" },
                 Db.mk [] [] []) ∧
     shopping_cart (Db.mk [] [] []) 0 1 Method.post
        = Except.error Http404.notFound) :=
  ⟨by simp, by simp,
    missing_recipe_divergent_statuses (Db.mk [] [] []) 0 1 (by simp)
      (by simp)⟩

/-- The spec's worked example: flour 200 + 300 and eggs 3 + 1 aggregate
to flour 500 and eggs 4, keys in first-seen order. -/
theorem aggregate_worked_example :
    aggregate [⟨"flour", "g", 200⟩, ⟨"eggs", "pcs", 3⟩,
               ⟨"flour", "g", 300⟩, ⟨"eggs", "pcs", 1⟩]
      = [("flour", "g", 500), ("eggs", "pcs", 4)] := rfl

set_option maxRecDepth 10000 in
/-- RFC 1321 test vector: the MD5 of the empty message. -/
theorem md5_empty_message_vector :
    String.mk (hexdigestChars (md5Bytes []))
      = "d41d8cd98f00b204e9800998ecf8427e" := by decide

set_option maxRecDepth 10000 in
/-- RFC 1321 test vector: the MD5 of the three-byte message `abc`. -/
theorem md5_abc_vector :
    String.mk (hexdigestChars (md5Bytes (strBytes "abc")))
      = "900150983cd24fb0d6963f7d28e17f72" := by decide

set_option maxRecDepth 10000 in
/-- Concrete filename check, agreeing byte-for-byte with CPython's
`hashlib.md5(str({'flour': ...}).encode()).hexdigest()[:5]`. -/
theorem download_filename_concrete :
    download_filename [("flour", "g", 500)] = "shopping_list_adde1.pdf" := by
  decide
